import Mathlib

/-!
Shallow embedding of `examples/stream-pipe/stream-pipe.cpp` (the streaming
transcription pipeline), together with proofs of the behavioural properties
of its control logic: ingestion, VAD-driven segmentation, buffer management,
token handling and emission.

Audio samples are modelled as rationals (the C++ code stores normalized
`float` samples; none of the verified properties depend on rounding, only on
which samples are where).  The external transcription engine (`whisper_full`
and the token accessors) and the external VAD (`vad_simple` from common.cpp)
are parameters of the step function: each loop iteration receives the VAD
verdict for its chunk and the token segments the engine produced.
-/

/-- `WHISPER_SAMPLE_RATE` from `whisper.h` (external header): 16000 Hz. -/
def WHISPER_SAMPLE_RATE : Nat := 16000

/-- `#define BUFFER_DURATION_SEC 10` (stream-pipe.cpp line 10). -/
def BUFFER_DURATION_SEC : Nat := 10

/-- `#define BUFFER_SIZE (WHISPER_SAMPLE_RATE * BUFFER_DURATION_SEC)` (line 11). -/
def BUFFER_SIZE : Nat := WHISPER_SAMPLE_RATE * BUFFER_DURATION_SEC

/-- The fields of `whisper_token_data` (from `whisper.h`) that stream-pipe.cpp
reads: `id`, `tid`, `p`, `t0`, `t1`, `t_dtw`, `vlen` (the remaining fields
`plen`, `pt`, `ptsum` are never touched by this program and are omitted).
Probabilities and times are carried opaquely; only `id` is ever branched on. -/
structure whisper_token_data where
  id : Int
  tid : Int
  p : ℚ
  t0 : Int
  t1 : Int
  t_dtw : Int
  vlen : Int
deriving DecidableEq, Repr

/-- `struct StreamToken { whisper_token_data data; std::string text; }` (lines 41-44). -/
structure StreamToken where
  data : whisper_token_data
  text : String
deriving DecidableEq, Repr

/-- `std::vector<float>::resize(n)` / `resize(n, 0.0f)` on a float vector:
truncate to `n` elements, or extend with zeros up to `n` elements
(value-initialization zero-fills floats). -/
def resizeList (l : List ℚ) (n : Nat) : List ℚ :=
  if n ≤ l.length then l.take n else l ++ List.replicate (n - l.length) 0

/-- `std::copy(chunk.begin(), chunk.end(), buf.begin() + start)`:
overwrite the elements of `buf` at positions `start, …, start+|chunk|-1`. -/
def copyAt (buf : List ℚ) (start : Nat) (chunk : List ℚ) : List ℚ :=
  buf.take start ++ chunk ++ buf.drop (start + chunk.length)

/-- Line 447: `accumulated_tokens = new_tokens;` — the whole previously
accumulated transcript is replaced by the freshly decoded token list. -/
def reconcile (accumulated_tokens new_tokens : List StreamToken) : List StreamToken :=
  new_tokens

/-- Lines 424-445: the token-collection loop over the engine's segments.
For each segment `i` and token `j`, the token is kept unless
`id >= whisper_token_eot(ctx)` (line 430 skips those), in order. -/
def collect_new_tokens (eot : Int) (segments : List (List StreamToken)) : List StreamToken :=
  segments.flatten.filter (fun t => decide (t.data.id < eot))

/-- Lines 246-250 of `output_json`: the record's `text` field is the
concatenation of the accumulated tokens' texts. -/
def full_output (accumulated_tokens : List StreamToken) : String :=
  accumulated_tokens.foldl (fun acc t => acc ++ t.text) ""

/-- One emitted record, as produced by `output_json` (called with `full =
true` at line 450): the segment counter, the concatenated text, and the
per-token detail list. -/
structure Record where
  segment : Nat
  text : String
  tokens : List StreamToken
deriving DecidableEq, Repr

/-- The mutable state of `main`'s processing loop (lines 337-357):
`audio_buffer` (initialised to `BUFFER_SIZE` zeros), `accumulated_tokens`,
`total_index`, `speech_counter`, `was_speaking`. -/
structure PipeState where
  total_index : Nat
  speech_counter : Nat
  was_speaking : Bool
  audio_buffer : List ℚ
  accumulated_tokens : List StreamToken
deriving DecidableEq, Repr

/-- Initial loop state (lines 337-357): zero-filled buffer of `BUFFER_SIZE`
samples, no tokens, `total_index = 0`, `speech_counter = 0`,
`was_speaking = false`. -/
def initState : PipeState :=
  { total_index := 0
    speech_counter := 0
    was_speaking := false
    audio_buffer := List.replicate BUFFER_SIZE 0
    accumulated_tokens := [] }

/-- Everything one loop iteration consumes from the outside world: the mono
chunk produced by `read_pcm_from_stdin`, the value `vad_simple(new_audio, …)`
returned by the external VAD (line 382 negates it), and the token segments
the external engine produced for the current buffer (lines 425-444). -/
structure StepInput where
  chunk : List ℚ
  vad_simple_result : Bool
  engine_segments : List (List StreamToken)
deriving Repr

/-- Lines 383-397, the segment-boundary block: increment `speech_counter`,
set `total_index = 0`, `audio_buffer.clear()`, `resize(BUFFER_SIZE + 0 +
new_samples)` (zero-filled), copy the chunk to the front, set `total_index`
to the chunk length, and clear the accumulated tokens (the unused
`accumulated_text` string is also cleared there; it is never read). -/
def onBoundary (s : PipeState) (chunk : List ℚ) : PipeState :=
  { s with
    speech_counter := s.speech_counter + 1
    total_index := chunk.length
    audio_buffer := copyAt (resizeList [] (BUFFER_SIZE + 0 + chunk.length)) 0 chunk
    accumulated_tokens := [] }

/-- Lines 413-415: if the buffer holds fewer than `WHISPER_SAMPLE_RATE / 2`
samples, zero-pad it to exactly that length before the engine call. -/
def padBuffer (buf : List ℚ) : List ℚ :=
  if buf.length < WHISPER_SAMPLE_RATE / 2 then resizeList buf (WHISPER_SAMPLE_RATE / 2) else buf

/-- One iteration of the `while (true)` loop body after a successful read
(lines 365-455), given the engine's end-of-text id `eot`
(`whisper_token_eot(ctx)`).  Returns the updated state and the record
emitted by `output_json`, or `none` when the iteration hit the
`if (new_samples < WHISPER_SAMPLE_RATE / 2) continue;` path (lines 372-374),
which skips VAD, buffering, the engine call and emission entirely. -/
def step (eot : Int) (s : PipeState) (inp : StepInput) : PipeState × Option Record :=
  let new_samples := inp.chunk.length
  if new_samples < WHISPER_SAMPLE_RATE / 2 then
    (s, none)
  else
    -- lines 378-380: grow the buffer, copy the chunk at total_index, advance it
    let buf1 := copyAt (resizeList s.audio_buffer (BUFFER_SIZE + s.total_index + new_samples))
                  s.total_index inp.chunk
    let s1 : PipeState := { s with audio_buffer := buf1, total_index := s.total_index + new_samples }
    -- line 382: is_speaking = !vad_simple(...)
    let is_speaking : Bool := !inp.vad_simple_result
    -- lines 383-397
    let s2 := if !is_speaking || !s.was_speaking then onBoundary s1 inp.chunk else s1
    -- line 400
    let s3 : PipeState := { s2 with was_speaking := is_speaking }
    -- lines 413-415
    let buf2 := padBuffer s3.audio_buffer
    -- lines 424-445 and 447
    let new_tokens := collect_new_tokens eot inp.engine_segments
    let s4 : PipeState := { s3 with
      audio_buffer := buf2
      accumulated_tokens := reconcile s3.accumulated_tokens new_tokens }
    (s4, some { segment := s4.speech_counter
                text := full_output s4.accumulated_tokens
                tokens := s4.accumulated_tokens })

/-- One fold step of the whole loop: run `step` and collect its record. -/
def runStep (eot : Int) (acc : PipeState × List Record) (inp : StepInput) : PipeState × List Record :=
  let out := step eot acc.1 inp
  (out.1, acc.2 ++ out.2.toList)

/-- Run the loop over a list of successfully-read iteration inputs, starting
from `initState`, collecting the emitted records. -/
def runPipe (eot : Int) (inputs : List StepInput) : PipeState × List Record :=
  inputs.foldl (runStep eot) (initState, [])

/-- Average of a left/right `int16_t` pair, as in line 308:
`int16_t mono = (left + right) / 2;` — C integer division truncates toward
zero, which is `Int.div`; the sum of two int16 values fits in `int` and the
quotient fits back in `int16_t`, so no wrap-around occurs. -/
def monoPairs : List Int → List ℚ
  | left :: right :: rest => ((Int.tdiv (left + right) 2 : Int) : ℚ) / 32768 :: monoPairs rest
  | _ => []

/-- `read_pcm_from_stdin` (lines 290-312).  Its input here is what `fread`
delivered this call: the complete little-endian `int16_t` values read, plus
whether a trailing odd byte was read (a lone byte contributes to
`bytes_read` but not a full sample).  Returns `none` exactly when the C++
function returns `false` (`bytes_read == 0`), otherwise `some` of the mono
samples appended to the caller's buffer: `samples_read = bytes_read / 2`,
minus one if odd, then every pair averaged and normalized by 32768. -/
def read_pcm_from_stdin (int16s : List Int) (extraByte : Bool) : Option (List ℚ) :=
  let bytes_read := 2 * int16s.length + (if extraByte then 1 else 0)
  if bytes_read = 0 then none
  else
    let samples_read := bytes_read / 2
    let samples_read := samples_read - samples_read % 2
    some (monoPairs (int16s.take samples_read))

/-- Lines 359-363: the loop breaks exactly when `read_pcm_from_stdin`
returns `false`, i.e. the modelled read is `none`. -/
def ingestion_breaks (r : Option (List ℚ)) : Bool :=
  r.isNone

/-- Lines 324-328: the startup language check.  `whisper_lang_id` is
external; its result for `params.language` is the `lang_id` argument, and
the unknown/unsupported language contract is `lang_id = -1`.  When
`language != "auto"` and the id is `-1`, the code prints the error and
usage and calls `exit(0)` — so the (modelled) exit status is `some 0`;
otherwise startup continues (`none`). -/
def language_check (language : String) (lang_id : Int) : Option Nat :=
  if language ≠ "auto" ∧ lang_id = -1 then some 0 else none

/-- Lines 77-81 of `whisper_params_parse`: an unknown argument prints the
error and usage and calls `exit(0)` — exit status 0. -/
def unknown_argument_exit_code : Nat := 0

/-- Lines 417-420: if `whisper_full` returns non-zero the pipeline prints
"Failed to process audio" and `return 2` — exit status 2; on zero it
continues (`none`). -/
def engine_invocation_check (whisper_full_ret : Int) : Option Nat :=
  if whisper_full_ret ≠ 0 then some 2 else none

/-- Modelled from the spec: the sliding-eviction rolling-buffer policy of
§4.3 ("Sliding policy").  This policy is code of the repository that is not
under `src/` (stream-pipe.cpp only implements the reset policy; the sliding
variant lives in the sibling stream example).  Faithful to the spec's words:
a hard `capacity`, the sample `data` (whose length is `fill_length`), and
`offset`, the cumulative count of evicted samples. -/
structure SlidingBuffer where
  capacity : Nat
  data : List ℚ
  offset : Nat
deriving DecidableEq, Repr

/-- The buffer's `fill_length` cursor: the count of valid samples. -/
def SlidingBuffer.fill_length (b : SlidingBuffer) : Nat := b.data.length

/-- Modelled from the spec: append under the sliding policy (§4.3).  If
`fill_length + new_samples ≤ capacity`, copy the new chunk to the end.
Otherwise `samples_to_remove = (fill_length + new_samples) − capacity`
oldest samples are evicted, the retained tail is shifted left, the chunk is
copied after it, and `offset` advances by `samples_to_remove`. -/
def SlidingBuffer.append (b : SlidingBuffer) (chunk : List ℚ) : SlidingBuffer :=
  if b.fill_length + chunk.length ≤ b.capacity then
    { b with data := b.data ++ chunk }
  else
    let samples_to_remove := b.fill_length + chunk.length - b.capacity
    { b with
      data := b.data.drop samples_to_remove ++ chunk
      offset := b.offset + samples_to_remove }

/-- The trace of buffer states along a sequence of appends: the initial
state followed by the state after each chunk. -/
def slideStates (b : SlidingBuffer) : List (List ℚ) → List SlidingBuffer
  | [] => [b]
  | c :: cs => b :: slideStates (b.append c) cs

/-! Concrete sample data used to exercise the definitions. -/

/-- A token whose vocabulary id is `n` (all other fields inert). -/
def token_demo (n : Int) : StreamToken :=
  { data := { id := n, tid := 0, p := 0, t0 := 0, t1 := 0, t_dtw := 0, vlen := 0 }
    text := "x" }

/-- A full-size chunk (half a second at 16 kHz): 8000 zero samples. -/
def chunk_demo : List ℚ := List.replicate (WHISPER_SAMPLE_RATE / 2) 0

/-- An iteration whose chunk the VAD classifies as speech
(`vad_simple` returned `false`, so `is_speaking = true`), engine silent. -/
def speech_input : StepInput :=
  { chunk := chunk_demo, vad_simple_result := false, engine_segments := [] }

/-- An iteration whose chunk the VAD classifies as silence
(`vad_simple` returned `true`, so `is_speaking = false`), engine silent. -/
def silence_input : StepInput :=
  { chunk := chunk_demo, vad_simple_result := true, engine_segments := [] }

/-- An iteration with a short chunk (4000 < 8000 samples); the engine would
have tokens to offer, but the iteration never reaches it. -/
def short_input : StepInput :=
  { chunk := List.replicate 4000 0
    vad_simple_result := true
    engine_segments := [[token_demo 1]] }

/-- A one-sample chunk, also short. -/
def tiny_input : StepInput :=
  { chunk := [0], vad_simple_result := false, engine_segments := [] }

/-- An iteration whose engine output mixes ordinary ids and ids at or above
the end-of-text id (for `eot = 3`: ids 1 and 2 pass, 3 and 5 are dropped). -/
def special_token_input : StepInput :=
  { chunk := chunk_demo
    vad_simple_result := false
    engine_segments := [[token_demo 1, token_demo 5], [token_demo 3, token_demo 2]] }

/-! Helper lemmas about one loop iteration. -/

/-- A chunk shorter than half a second hits the `continue` (lines 372-374):
the iteration changes nothing and emits nothing. -/
theorem step_skip (eot : Int) (s : PipeState) (inp : StepInput)
    (h : inp.chunk.length < WHISPER_SAMPLE_RATE / 2) :
    step eot s inp = (s, none) := by
  simp [step, h]

/-- On a processed chunk, the counter increments exactly when the boundary
condition `!is_speaking || !was_speaking` holds. -/
theorem step_counter (eot : Int) (s : PipeState) (inp : StepInput)
    (h : ¬ inp.chunk.length < WHISPER_SAMPLE_RATE / 2) :
    (step eot s inp).1.speech_counter =
      if !(!inp.vad_simple_result) || !s.was_speaking
      then s.speech_counter + 1 else s.speech_counter := by
  simp only [step, if_neg h]
  split
  · simp [onBoundary]
  · rfl

/-- On a processed chunk, `was_speaking` becomes the fresh classification. -/
theorem step_was (eot : Int) (s : PipeState) (inp : StepInput)
    (h : ¬ inp.chunk.length < WHISPER_SAMPLE_RATE / 2) :
    (step eot s inp).1.was_speaking = !inp.vad_simple_result := by
  simp only [step, if_neg h]

/-- On a processed chunk, the accumulated transcript after the iteration is
exactly the engine's filtered output — independent of the previous state. -/
theorem step_tokens (eot : Int) (s : PipeState) (inp : StepInput)
    (h : ¬ inp.chunk.length < WHISPER_SAMPLE_RATE / 2) :
    (step eot s inp).1.accumulated_tokens = collect_new_tokens eot inp.engine_segments := by
  simp only [step, if_neg h]
  split
  · simp [onBoundary, reconcile]
  · rfl

/-- On a processed chunk, exactly one record is emitted, built from the
post-iteration counter and the freshly collected tokens. -/
theorem step_record (eot : Int) (s : PipeState) (inp : StepInput)
    (h : ¬ inp.chunk.length < WHISPER_SAMPLE_RATE / 2) :
    (step eot s inp).2 =
      some { segment := (step eot s inp).1.speech_counter
             text := full_output (collect_new_tokens eot inp.engine_segments)
             tokens := collect_new_tokens eot inp.engine_segments } := by
  simp only [step, if_neg h]
  split
  · simp [onBoundary, reconcile]
  · rfl

/-- The segment counter never decreases across an iteration. -/
theorem step_counter_mono (eot : Int) (s : PipeState) (inp : StepInput) :
    s.speech_counter ≤ (step eot s inp).1.speech_counter := by
  by_cases h : inp.chunk.length < WHISPER_SAMPLE_RATE / 2
  · rw [step_skip eot s inp h]
  · rw [step_counter eot s inp h]
    split <;> omega

/-- `resize` of a cleared vector is a zero-filled vector. -/
theorem resizeList_nil (n : Nat) : resizeList [] n = List.replicate n 0 := by
  unfold resizeList
  split
  · next h => simp_all
  · simp

/-- After the boundary block, the audio buffer is exactly the triggering
chunk followed by `BUFFER_SIZE` zero samples. -/
theorem onBoundary_buffer (s : PipeState) (chunk : List ℚ) :
    (onBoundary s chunk).audio_buffer = chunk ++ List.replicate BUFFER_SIZE 0 := by
  unfold onBoundary copyAt
  simp [resizeList_nil, List.drop_replicate, Nat.add_comm]

/-! Helper lemmas about the (spec-modelled) sliding buffer policy. -/

/-- Appending never changes the capacity. -/
theorem SlidingBuffer.append_capacity (b : SlidingBuffer) (c : List ℚ) :
    (b.append c).capacity = b.capacity := by
  unfold SlidingBuffer.append
  split <;> rfl

/-- Appending a chunk no larger than the capacity keeps the fill within
capacity. -/
theorem SlidingBuffer.append_fill_le (b : SlidingBuffer) (c : List ℚ)
    (hb : b.fill_length ≤ b.capacity) (hc : c.length ≤ b.capacity) :
    (b.append c).fill_length ≤ b.capacity := by
  unfold SlidingBuffer.append
  split
  · next hfit => simpa [SlidingBuffer.fill_length] using hfit
  · next hover =>
      simp only [SlidingBuffer.fill_length, List.length_append, List.length_drop] at *
      omega

/-- Appending never decreases the eviction offset. -/
theorem SlidingBuffer.append_offset_le (b : SlidingBuffer) (c : List ℚ) :
    b.offset ≤ (b.append c).offset := by
  unfold SlidingBuffer.append
  split
  · exact le_refl _
  · exact Nat.le_add_right _ _

/-- A state trace always starts with its initial state. -/
theorem slideStates_shape (cs : List (List ℚ)) (b : SlidingBuffer) :
    ∃ t, slideStates b cs = b :: t := by
  cases cs with
  | nil => exact ⟨[], rfl⟩
  | cons c cs => exact ⟨slideStates (b.append c) cs, rfl⟩

/-- Every state along a trace keeps the initial capacity. -/
theorem slideStates_capacity (cs : List (List ℚ)) (b : SlidingBuffer)
    (x : SlidingBuffer) (hx : x ∈ slideStates b cs) : x.capacity = b.capacity := by
  induction cs generalizing b with
  | nil => simp [slideStates] at hx; simp [hx]
  | cons c cs ih =>
      simp only [slideStates, List.mem_cons] at hx
      rcases hx with rfl | hx
      · rfl
      · rw [ih (b.append c) hx, SlidingBuffer.append_capacity]

/-- Every state along a trace of bounded chunks keeps its fill within the
initial capacity. -/
theorem slideStates_fill_le (cs : List (List ℚ)) (b : SlidingBuffer)
    (hb : b.fill_length ≤ b.capacity) (hc : ∀ c ∈ cs, c.length ≤ b.capacity)
    (x : SlidingBuffer) (hx : x ∈ slideStates b cs) : x.fill_length ≤ b.capacity := by
  induction cs generalizing b with
  | nil => simp [slideStates] at hx; simp [hx, hb]
  | cons c cs ih =>
      simp only [slideStates, List.mem_cons] at hx
      rcases hx with rfl | hx
      · exact hb
      · have hcap := SlidingBuffer.append_capacity b c
        have h1 : (b.append c).fill_length ≤ (b.append c).capacity := by
          rw [hcap]
          exact SlidingBuffer.append_fill_le b c hb (hc c (by simp))
        have h2 : ∀ d ∈ cs, d.length ≤ (b.append c).capacity := by
          intro d hd
          rw [hcap]
          exact hc d (by simp [hd])
        have := ih (b.append c) h1 h2 hx
        rwa [hcap] at this

/-- Offsets are non-decreasing along any trace. -/
theorem slideStates_offset_chain (cs : List (List ℚ)) (b : SlidingBuffer) :
    List.Chain' (fun x y => x.offset ≤ y.offset) (slideStates b cs) := by
  induction cs generalizing b with
  | nil => simp [slideStates]
  | cons c cs ih =>
      obtain ⟨t, ht⟩ := slideStates_shape cs (b.append c)
      simp only [slideStates, ht]
      exact List.chain'_cons.2 ⟨SlidingBuffer.append_offset_le b c, ht ▸ ih (b.append c)⟩

/-! Claim C1 -/

/-- C1 counterexample: the claimed truncation-cursor reconciliation does not
happen.  Accumulated tokens with ids `[1,2,3]` merged with fresh tokens with
ids `[2,3,4]` yield ids `[2,3,4]` (line 447 replaces the transcript
wholesale), not the claimed `[1,2,3,4]`. -/
theorem c1_scenario_c_counterexample :
    (reconcile [token_demo 1, token_demo 2, token_demo 3]
        [token_demo 2, token_demo 3, token_demo 4]).map (fun t => t.data.id) = [2, 3, 4]
    ∧ ([2, 3, 4] : List Int) ≠ [1, 2, 3, 4] := by
  exact ⟨rfl, by decide⟩

/-- C1 (amended): reconciliation performs no search and no truncation-cursor
bookkeeping — it discards the previous AccumulatedTranscript entirely and
replaces it with `new_tokens`; at the level of a whole processed iteration,
the post-step transcript is exactly the engine's filtered output, whatever
the previous transcript was. -/
theorem c1_reconcile_replaces_transcript :
    (∀ accumulated new_tokens : List StreamToken,
        reconcile accumulated new_tokens = new_tokens)
    ∧ (∀ (eot : Int) (s : PipeState) (inp : StepInput),
        ¬ inp.chunk.length < WHISPER_SAMPLE_RATE / 2 →
        (step eot s inp).1.accumulated_tokens = collect_new_tokens eot inp.engine_segments) := by
  exact ⟨fun _ _ => rfl, step_tokens⟩

/-- C1 witness: the amended statement at a concrete processed iteration. -/
theorem c1_witness :
    (step 7 initState special_token_input).1.accumulated_tokens =
      collect_new_tokens 7 special_token_input.engine_segments :=
  c1_reconcile_replaces_transcript.2 7 initState special_token_input
    (by simp [special_token_input, chunk_demo])

/-! Claim C2 (spec-modelled: the sliding policy is not part of src/). -/

/-- C2: under the sliding policy, `fill_length ≤ capacity` holds at every
state along any trace of appends of chunks no larger than the capacity; an
overflowing append evicts exactly `samples_to_remove = fill_length +
new_samples − capacity` oldest samples, places the chunk after the retained
tail and advances `offset` by `samples_to_remove`; a fitting append keeps
`offset`, which is therefore non-decreasing along the trace. -/
theorem c2_sliding_buffer_policy (b0 : SlidingBuffer) (chunks : List (List ℚ))
    (hb : b0.fill_length ≤ b0.capacity)
    (hc : ∀ c ∈ chunks, c.length ≤ b0.capacity) :
    (∀ x ∈ slideStates b0 chunks, x.fill_length ≤ b0.capacity)
    ∧ List.Chain' (fun x y => x.offset ≤ y.offset) (slideStates b0 chunks)
    ∧ (∀ (b : SlidingBuffer) (c : List ℚ),
        ¬ (b.fill_length + c.length ≤ b.capacity) →
          (b.append c).data = b.data.drop (b.fill_length + c.length - b.capacity) ++ c
          ∧ (b.append c).offset = b.offset + (b.fill_length + c.length - b.capacity))
    ∧ (∀ (b : SlidingBuffer) (c : List ℚ),
        b.fill_length + c.length ≤ b.capacity →
          (b.append c).data = b.data ++ c ∧ (b.append c).offset = b.offset) := by
  refine ⟨fun x hx => slideStates_fill_le chunks b0 hb hc x hx,
          slideStates_offset_chain chunks b0, ?_, ?_⟩
  · intro b c hover
    constructor <;> simp [SlidingBuffer.append, if_neg hover]
  · intro b c hfit
    constructor <;> simp [SlidingBuffer.append, if_pos hfit]

/-- C2 witness: a capacity-3 buffer fed two 2-sample chunks; the state after
the second (overflowing) append still fills at most the capacity. -/
theorem c2_witness :
    (SlidingBuffer.mk 3 [0, 0, 0] 1).fill_length ≤ (SlidingBuffer.mk 3 [] 0).capacity :=
  (c2_sliding_buffer_policy (SlidingBuffer.mk 3 [] 0) [[0, 0], [0, 0]]
      (by decide) (by decide)).1
    (SlidingBuffer.mk 3 [0, 0, 0] 1)
    (by simp [slideStates, SlidingBuffer.append, SlidingBuffer.fill_length])

/-! Claim C3 -/

/-- C3: a boundary event (counter increment) fires on a processed chunk iff
the fresh classification differs from the remembered one or the remembered
one was SILENCE (`was_speaking = false`); and one SPEECH chunk followed by
one SILENCE chunk drives the counter from 0 to 1 to 2 — two boundary
events. -/
theorem c3_boundary_condition :
    (∀ (eot : Int) (s : PipeState) (inp : StepInput),
        ¬ inp.chunk.length < WHISPER_SAMPLE_RATE / 2 →
        ((step eot s inp).1.speech_counter = s.speech_counter + 1 ↔
          ((!inp.vad_simple_result) ≠ s.was_speaking ∨ s.was_speaking = false)))
    ∧ (step 50256 initState speech_input).1.speech_counter = 1
    ∧ (runPipe 50256 [speech_input, silence_input]).1.speech_counter = 2 := by
  have hlen1 : ¬ speech_input.chunk.length < WHISPER_SAMPLE_RATE / 2 := by
    simp [speech_input, chunk_demo]
  have hlen2 : ¬ silence_input.chunk.length < WHISPER_SAMPLE_RATE / 2 := by
    simp [silence_input, chunk_demo]
  refine ⟨?_, ?_, ?_⟩
  · intro eot s inp h
    rw [step_counter eot s inp h]
    cases hv : inp.vad_simple_result <;> cases hw : s.was_speaking <;> simp
  · rw [step_counter 50256 initState speech_input hlen1]
    simp [speech_input, initState]
  · show (runStep 50256 (runStep 50256 (initState, []) speech_input) silence_input).1.speech_counter = 2
    simp only [runStep]
    rw [step_counter 50256 _ silence_input hlen2,
        step_was 50256 initState speech_input hlen1,
        step_counter 50256 initState speech_input hlen1]
    simp [speech_input, silence_input, initState]

/-- C3 witness: the boundary criterion at a concrete iteration. -/
theorem c3_witness :
    (step 50256 initState speech_input).1.speech_counter = initState.speech_counter + 1 ↔
      ((!speech_input.vad_simple_result) ≠ initState.was_speaking
        ∨ initState.was_speaking = false) :=
  c3_boundary_condition.1 50256 initState speech_input (by simp [speech_input, chunk_demo])

/-! Claim C4 -/

/-- Fold lemma: over iterations whose chunks are all full-size, classified
silence, with an engine that produces no tokens, every iteration fires a
boundary (the counter grows by the number of iterations) and every emitted
record has empty text. -/
theorem foldl_silence (eot : Int) (inputs : List StepInput) :
    (∀ inp ∈ inputs,
        inp.vad_simple_result = true
        ∧ ¬ inp.chunk.length < WHISPER_SAMPLE_RATE / 2
        ∧ inp.engine_segments = []) →
    ∀ (s : PipeState) (recs : List Record),
      (inputs.foldl (runStep eot) (s, recs)).1.speech_counter = s.speech_counter + inputs.length
      ∧ ∀ r ∈ (inputs.foldl (runStep eot) (s, recs)).2, r ∈ recs ∨ r.text = "" := by
  induction inputs with
  | nil =>
      intro _ s recs
      exact ⟨by simp, fun r hr => Or.inl hr⟩
  | cons inp rest ih =>
      intro h s recs
      obtain ⟨hv, hlen, hseg⟩ := h inp (by simp)
      have hrest := fun i hi => h i (List.mem_cons_of_mem _ hi)
      have hstep : runStep eot (s, recs) inp =
          ((step eot s inp).1, recs ++ (step eot s inp).2.toList) := rfl
      have hc := step_counter eot s inp hlen
      have hcnt : (step eot s inp).1.speech_counter = s.speech_counter + 1 := by
        rw [hc]; simp [hv]
      have hrec := step_record eot s inp hlen
      have main := ih hrest (step eot s inp).1 (recs ++ (step eot s inp).2.toList)
      refine ⟨?_, ?_⟩
      · rw [List.foldl_cons, hstep, main.1, hcnt]
        simp [Nat.add_comm, Nat.add_assoc, Nat.add_left_comm]
      · intro r hr
        rw [List.foldl_cons, hstep] at hr
        rcases main.2 r hr with hmem | htext
        · rcases List.mem_append.1 hmem with hmem' | hmem'
          · exact Or.inl hmem'
          · right
            rw [hrec] at hmem'
            simp only [hseg, Option.toList_some, List.mem_singleton] at hmem'
            subst hmem'
            rfl
        · exact Or.inr htext

/-- C4 counterexample: three seconds of pure silence are six half-second
chunks, and the code fires a boundary event on every one of them: the
segment counter ends at 6, not at the claimed 0. -/
theorem c4_silence_counterexample :
    (runPipe 50256 (List.replicate 6 silence_input)).1.speech_counter = 6
    ∧ (6 : Nat) ≠ 0 := by
  have h := foldl_silence 50256 (List.replicate 6 silence_input)
    (by
      intro i hi
      rw [List.eq_of_mem_replicate hi]
      exact ⟨rfl, by simp [silence_input, chunk_demo], rfl⟩)
    initState []
  refine ⟨?_, by decide⟩
  unfold runPipe
  rw [h.1, List.length_replicate]
  rfl

/-- C4 (amended): on input consisting solely of full-size chunks classified
silence, a boundary event fires for every chunk — the counter ends at the
number of chunks — and, the engine producing no tokens on silence, every
emitted transcription record has empty text. -/
theorem c4_silence_segments_and_empty_records (eot : Int) (inputs : List StepInput)
    (h : ∀ inp ∈ inputs,
        inp.vad_simple_result = true
        ∧ ¬ inp.chunk.length < WHISPER_SAMPLE_RATE / 2
        ∧ inp.engine_segments = []) :
    (runPipe eot inputs).1.speech_counter = inputs.length
    ∧ ∀ r ∈ (runPipe eot inputs).2, r.text = "" := by
  have main := foldl_silence eot inputs h initState []
  unfold runPipe
  refine ⟨by rw [main.1]; exact Nat.zero_add _, ?_⟩
  intro r hr
  rcases main.2 r hr with hmem | htext
  · simp at hmem
  · exact htext

/-- C4 witness: the amended statement over three concrete silence chunks. -/
theorem c4_witness :
    (runPipe 50256 (List.replicate 3 silence_input)).1.speech_counter = 3 := by
  have h := (c4_silence_segments_and_empty_records 50256 (List.replicate 3 silence_input)
    (by
      intro i hi
      rw [List.eq_of_mem_replicate hi]
      exact ⟨rfl, by simp [silence_input, chunk_demo], rfl⟩)).1
  rwa [List.length_replicate] at h

/-! Claim C5 -/

/-- C5 counterexample: after a boundary event the buffer is not exactly the
triggering chunk — the code clears and then resizes to `BUFFER_SIZE +
new_samples` zero-filled samples before copying the chunk in, so ten
seconds of zeros trail the chunk. -/
theorem c5_buffer_not_exactly_chunk :
    (onBoundary initState chunk_demo).audio_buffer ≠ chunk_demo := by
  rw [onBoundary_buffer initState chunk_demo]
  intro heq
  have hlen := congrArg List.length heq
  rw [List.length_append, List.length_replicate] at hlen
  have hzero : BUFFER_SIZE = 0 := by omega
  simp [BUFFER_SIZE, WHISPER_SAMPLE_RATE, BUFFER_DURATION_SEC] at hzero

/-- C5 (amended): every boundary event increments the segment counter by
exactly 1, clears the AccumulatedTranscript (the code keeps no truncation
cursor to clear), sets the valid-data cursor `total_index` to the chunk
length and rebuilds the buffer as the triggering chunk followed by
`BUFFER_SIZE` zero samples; across any iteration the counter never
decreases. -/
theorem c5_boundary_event_effects :
    (∀ (s : PipeState) (chunk : List ℚ),
        (onBoundary s chunk).speech_counter = s.speech_counter + 1
        ∧ (onBoundary s chunk).accumulated_tokens = []
        ∧ (onBoundary s chunk).audio_buffer = chunk ++ List.replicate BUFFER_SIZE 0
        ∧ (onBoundary s chunk).total_index = chunk.length)
    ∧ (∀ (eot : Int) (s : PipeState) (inp : StepInput),
        s.speech_counter ≤ (step eot s inp).1.speech_counter) :=
  ⟨fun s c => ⟨rfl, rfl, onBoundary_buffer s c, rfl⟩, step_counter_mono⟩

/-! Claim C6 -/

/-- C6 counterexample: reconciling an empty `new_tokens` does change a
non-empty AccumulatedTranscript — line 447 overwrites it with the empty
list. -/
theorem c6_empty_input_counterexample :
    reconcile [token_demo 1] [] = [] ∧ reconcile [token_demo 1] [] ≠ [token_demo 1] :=
  ⟨rfl, by simp [reconcile]⟩

/-- C6 (amended): reconciling an empty `new_tokens` sequence always sets the
AccumulatedTranscript to the empty sequence, so it is left unchanged exactly
when it was already empty. -/
theorem c6_empty_input_clears (accumulated : List StreamToken) :
    reconcile accumulated [] = []
    ∧ (reconcile accumulated [] = accumulated ↔ accumulated = []) :=
  ⟨rfl, by simp [reconcile, eq_comm]⟩

/-! Claim C7 -/

/-- C7 counterexample: an unknown language ("xx", for which the external
`whisper_lang_id` reports `-1`) makes the program print usage and call
`exit(0)` (line 327) — exit status zero, not the claimed non-zero status. -/
theorem c7_config_error_exit_counterexample :
    language_check "xx" (-1) = some 0
    ∧ ¬ (∀ code : Nat, language_check "xx" (-1) = some code → code ≠ 0) := by
  have h : language_check "xx" (-1) = some 0 := by decide
  exact ⟨h, fun hall => hall 0 h rfl⟩

/-- C7 (amended): configuration errors (unknown language, unknown option)
exit with status 0 after printing usage, while an engine invocation failure
exits with status 2 — a non-zero status distinct from the configuration-error
status. -/
theorem c7_exit_statuses :
    (∀ (language : String) (lang_id : Int),
        language ≠ "auto" → lang_id = -1 → language_check language lang_id = some 0)
    ∧ unknown_argument_exit_code = 0
    ∧ (∀ ret : Int, ret ≠ 0 → engine_invocation_check ret = some 2)
    ∧ (2 : Nat) ≠ 0 := by
  refine ⟨?_, rfl, ?_, by decide⟩
  · intro l i hl hi
    simp [language_check, hl, hi]
  · intro r hr
    simp [engine_invocation_check, hr]

/-- C7 witness: concrete startup failure and engine failure statuses. -/
theorem c7_witness :
    language_check "zz" (-1) = some 0 ∧ engine_invocation_check 1 = some 2 :=
  ⟨c7_exit_statuses.1 "zz" (-1) (by decide) rfl, c7_exit_statuses.2.2.1 1 (by decide)⟩

/-! Claim C8 -/

/-- C8 counterexample: a 4000-sample chunk (shorter than the 8000-sample
minimum window) is not classified by the VAD and the engine is not invoked
on it — the iteration hits `continue`, leaves the state untouched and emits
nothing, even though the engine had tokens to offer. -/
theorem c8_short_chunk_skipped_counterexample :
    step 50256 initState short_input = (initState, none) :=
  step_skip 50256 initState short_input
    (by simp only [short_input, List.length_replicate]; decide)

/-- C8 (amended): a short chunk is not an error, but it is skipped entirely:
the iteration returns the state unchanged with no emission (no VAD call, no
engine call).  Separately, the pre-engine guard of lines 413-415 would
zero-pad a buffer shorter than the minimum window up to exactly that window,
and leaves longer buffers alone. -/
theorem c8_short_chunk_behaviour :
    (∀ (eot : Int) (s : PipeState) (inp : StepInput),
        inp.chunk.length < WHISPER_SAMPLE_RATE / 2 → step eot s inp = (s, none))
    ∧ (∀ buf : List ℚ, buf.length < WHISPER_SAMPLE_RATE / 2 →
        padBuffer buf = buf ++ List.replicate (WHISPER_SAMPLE_RATE / 2 - buf.length) 0
        ∧ (padBuffer buf).length = WHISPER_SAMPLE_RATE / 2)
    ∧ (∀ buf : List ℚ, ¬ buf.length < WHISPER_SAMPLE_RATE / 2 → padBuffer buf = buf) := by
  refine ⟨step_skip, ?_, ?_⟩
  · intro buf hshort
    have hpad : padBuffer buf = buf ++ List.replicate (WHISPER_SAMPLE_RATE / 2 - buf.length) 0 := by
      unfold padBuffer resizeList
      rw [if_pos hshort, if_neg (by omega)]
    refine ⟨hpad, ?_⟩
    rw [hpad, List.length_append, List.length_replicate]
    omega
  · intro buf hlong
    unfold padBuffer
    rw [if_neg hlong]

/-- C8 witness: the skip behaviour at a one-sample chunk. -/
theorem c8_witness :
    step 50256 initState tiny_input = (initState, none) :=
  c8_short_chunk_behaviour.1 50256 initState tiny_input (by decide)

/-! Claim C9 -/

/-- A read fails exactly when it delivered zero bytes. -/
theorem read_pcm_none_iff (int16s : List Int) (extraByte : Bool) :
    read_pcm_from_stdin int16s extraByte = none ↔
      2 * int16s.length + (if extraByte then 1 else 0) = 0 := by
  unfold read_pcm_from_stdin
  split
  · next h => simp [h]
  · next h => simp [h]

/-- C9 counterexample: a read of one int16 value (two bytes) produces zero
mono samples (the odd sample count is dropped), yet `read_pcm_from_stdin`
returns success — the loop does not terminate on this zero-new-sample read,
refuting the claimed "terminates iff a read yields zero samples". -/
theorem c9_zero_sample_read_continues :
    read_pcm_from_stdin [5] false = some []
    ∧ ingestion_breaks (read_pcm_from_stdin [5] false) = false := by
  constructor
  · rfl
  · rfl

/-- C9 (amended): the loop terminates cleanly iff the read delivers zero
bytes (`bytes_read == 0`); every read that delivers at least one byte
returns success and continues the loop, even when it contributes zero new
mono samples. -/
theorem c9_break_iff_zero_bytes :
    (∀ (int16s : List Int) (extraByte : Bool),
        ingestion_breaks (read_pcm_from_stdin int16s extraByte) = true ↔
          int16s = [] ∧ extraByte = false)
    ∧ (∀ (int16s : List Int) (extraByte : Bool) (monos : List ℚ),
        read_pcm_from_stdin int16s extraByte = some monos →
        ingestion_breaks (read_pcm_from_stdin int16s extraByte) = false) := by
  constructor
  · intro ints eb
    unfold ingestion_breaks
    rw [Option.isNone_iff_eq_none, read_pcm_none_iff]
    cases eb <;> simp [List.length_eq_zero]
  · intro ints eb monos hsome
    unfold ingestion_breaks
    rw [hsome]
    rfl

/-- C9 witness: the break criterion at the empty read, and a concrete
successful read (one int16 value plus a stray byte) that continues. -/
theorem c9_witness :
    (ingestion_breaks (read_pcm_from_stdin [] false) = true ↔
      ([] : List Int) = [] ∧ false = false)
    ∧ ingestion_breaks (read_pcm_from_stdin [7] true) = false :=
  ⟨c9_break_iff_zero_bytes.1 [] false, c9_break_iff_zero_bytes.2 [7] true [] rfl⟩

/-! Claim C10 -/

/-- C10: every token that enters the accumulated transcript — and every
token listed in an emitted record — has a vocabulary id strictly below the
engine's end-of-text id: line 430 filters ids `≥ eot` out of the engine's
output before it replaces the transcript. -/
theorem c10_tokens_below_eot (eot : Int) (s : PipeState) (inp : StepInput)
    (hlen : ¬ inp.chunk.length < WHISPER_SAMPLE_RATE / 2)
    (t : StreamToken)
    (ht : t ∈ (step eot s inp).1.accumulated_tokens
          ∨ ∃ r, (step eot s inp).2 = some r ∧ t ∈ r.tokens) :
    t.data.id < eot := by
  have hmem : t ∈ collect_new_tokens eot inp.engine_segments := by
    rcases ht with hacc | ⟨r, hr, htok⟩
    · rwa [step_tokens eot s inp hlen] at hacc
    · rw [step_record eot s inp hlen] at hr
      injection hr with hr
      rw [← hr] at htok
      exact htok
  unfold collect_new_tokens at hmem
  exact of_decide_eq_true (List.mem_filter.1 hmem).2

/-- C10 witness: with `eot = 3`, the token with id 2 survives the filter and
its id is below 3. -/
theorem c10_witness : (token_demo 2).data.id < 3 :=
  c10_tokens_below_eot 3 initState special_token_input
    (by simp [special_token_input, chunk_demo])
    (token_demo 2)
    (Or.inl (by
      rw [step_tokens 3 initState special_token_input (by simp [special_token_input, chunk_demo])]
      decide))
